import Mathlib

/- Shallow embedding of the who-chat room/connection engine (src/main.rs).

   Modelling choices, kept as close to the source as Lean allows:
   - HashMap<String, _> becomes an association list with the usual
     replace-on-insert semantics; Vec becomes List.
   - The ws Sender is reduced to its connection_id (a Nat); an attempted
     send is recorded as an Event.  Whether a send physically succeeds is
     outside the program (best-effort), so delivery is factored out as a
     predicate on connection ids applied to the recorded attempts.
   - Uuid::new_v4() and the RFC-3339 clock are nondeterministic inputs,
     passed in as explicit String arguments (msgId, now, userId).
   - serde_json parsing of an inbound frame is abstracted at its result:
     a frame is either not valid JSON, valid JSON without a string
     content field, or a frame carrying a string content.  JSON objects
     written by the server are modelled as a record with one Option field
     per possibly-present key. -/

structure Sender where
  connection_id : Nat
deriving DecidableEq, Repr

inductive MessageType where
  | UserMessage
  | SystemMessage
  | Command
deriving DecidableEq, Repr

structure ChatMessage where
  id : String
  room_id : String
  sender : String
  content : String
  timestamp : String
  message_type : MessageType
deriving DecidableEq, Repr

structure User where
  id : String
  nickname : String
  room_id : String
deriving DecidableEq, Repr

structure RoomState where
  users : List (String × User)
  messages : List ChatMessage
  connections : List Sender
deriving DecidableEq, Repr

def RoomState.new : RoomState :=
  { users := [], messages := [], connections := [] }

/-- A server-to-client JSON object; a field that the source omits from the
    json! literal is none. -/
structure WirePayload where
  type : String
  id : Option String
  sender : Option String
  content : Option String
  timestamp : Option String
  command : Option String
deriving DecidableEq, Repr

/-- One attempted send of a payload to the connection with the given id. -/
inductive Event where
  | send (target : Nat) (payload : WirePayload)
deriving DecidableEq, Repr

def Event.target : Event → Nat
  | .send t _ => t

/-- RoomState::broadcast: attempt a send to every currently registered
    connection; the per-send result is discarded (let _ = ...). -/
def RoomState.broadcast (rs : RoomState) (msg : WirePayload) : List Event :=
  rs.connections.map (fun c => Event.send c.connection_id msg)

/-- Best-effort delivery: of the attempted sends, only those whose target
    connection is healthy (per ok) actually arrive. -/
def deliveredTo (ok : Nat → Bool) (evs : List Event) : List Event :=
  evs.filter (fun e => ok e.target)

def lookupUser : List (String × User) → String → Option User
  | [], _ => none
  | (k, v) :: rest, key => if k = key then some v else lookupUser rest key

def insertUser : List (String × User) → String → User → List (String × User)
  | [], key, v => [(key, v)]
  | (k, v') :: rest, key, v =>
      if k = key then (key, v) :: rest else (k, v') :: insertUser rest key v

def removeUser : List (String × User) → String → List (String × User)
  | [], _ => []
  | (k, v) :: rest, key => if k = key then rest else (k, v) :: removeUser rest key

def containsKeyUser (us : List (String × User)) (key : String) : Bool :=
  (lookupUser us key).isSome

structure ChatSocketHandler where
  sender : Sender
  room_id : String
  user_id : String
  nickname : String
deriving DecidableEq, Repr

structure UserSession where
  user_id : String
  nickname : String
  room_id : String
deriving DecidableEq, Repr

/-- The wire discriminator for a message kind: the match inside on_open's
    history replay loop. -/
def wireDisc : MessageType → String
  | .UserMessage => "message"
  | .SystemMessage => "system"
  | .Command => "command"

/-- The payload sent per history entry to a newly opened connection
    (on_open, lines 302-312). -/
def replayPayload (m : ChatMessage) : WirePayload :=
  { type := wireDisc m.message_type, id := some m.id, sender := some m.sender,
    content := some m.content, timestamp := some m.timestamp, command := none }

/-- The live join announcement payload (on_open lines 338-341, login
    lines 197-200): only type and content. -/
def joinBroadcastPayload (nickname : String) : WirePayload :=
  { type := "system", id := none, sender := none,
    content := some (nickname ++ " has joined the room"),
    timestamp := none, command := none }

/-- The live leave announcement payload (on_close lines 430-433, logout
    lines 225-228): only type and content. -/
def leaveBroadcastPayload (nickname : String) : WirePayload :=
  { type := "system", id := none, sender := none,
    content := some (nickname ++ " has left the room"),
    timestamp := none, command := none }

/-- ChatSocketHandler::on_open: register the connection, replay the full
    history to this connection only, then insert the User if absent, in
    which case a join SystemMessage is appended and broadcast (the
    broadcast includes the just-registered connection). -/
def on_open (h : ChatSocketHandler) (msgId now : String) (rs : RoomState) :
    RoomState × List Event :=
  let conns := rs.connections ++ [h.sender]
  let history := rs.messages.map
    (fun m => Event.send h.sender.connection_id (replayPayload m))
  if containsKeyUser rs.users h.user_id then
    ({ rs with connections := conns }, history)
  else
    let joinMsg : ChatMessage :=
      { id := msgId, room_id := h.room_id, sender := "System",
        content := h.nickname ++ " has joined the room", timestamp := now,
        message_type := .SystemMessage }
    let rs' : RoomState :=
      { users := insertUser rs.users h.user_id
          { id := h.user_id, nickname := h.nickname, room_id := h.room_id },
        messages := rs.messages ++ [joinMsg],
        connections := conns }
    (rs', history ++ rs'.broadcast (joinBroadcastPayload h.nickname))

/-- ChatSocketHandler::handle_command: case-sensitive match on the raw
    command text, one reply sent to the originating connection only. -/
def handle_command (h : ChatSocketHandler) (command : String) : List Event :=
  if command = "/clear" then
    [Event.send h.sender.connection_id
      { type := "command", id := none, sender := none, content := none,
        timestamp := none, command := some "clear" }]
  else if command = "/logout" then
    [Event.send h.sender.connection_id
      { type := "command", id := none, sender := none, content := none,
        timestamp := none, command := some "logout" }]
  else
    [Event.send h.sender.connection_id
      { type := "system", id := none, sender := none,
        content := some ("Unknown command: " ++ command),
        timestamp := none, command := none }]

/-- An inbound frame, abstracted at the parse boundary of on_message:
    msg.into_text() may fail (notText); serde_json::from_str may fail
    (invalidJson); json.get("content").and_then(as_str) may be absent
    (jsonWithoutContent); otherwise a string content was extracted. -/
inductive Frame where
  | notText
  | invalidJson (raw : String)
  | jsonWithoutContent (raw : String)
  | withContent (content : String)
deriving DecidableEq, Repr

/-- ChatSocketHandler::on_message, body: unusable frames fall through the
    if-lets and change nothing; a content starting with a slash goes to
    handle_command; anything else becomes a UserMessage that is appended
    to history and broadcast to the whole room. -/
def on_message_core (h : ChatSocketHandler) (msgId now : String)
    (rs : RoomState) (frame : Frame) : RoomState × List Event :=
  match frame with
  | .withContent content =>
      if content.data.head? = some '/' then
        (rs, handle_command h content)
      else
        let msg : ChatMessage :=
          { id := msgId, room_id := h.room_id, sender := h.nickname,
            content := content, timestamp := now,
            message_type := .UserMessage }
        let rs' : RoomState := { rs with messages := rs.messages ++ [msg] }
        (rs', rs'.broadcast
          { type := "message", id := some msg.id, sender := some msg.sender,
            content := some msg.content, timestamp := some msg.timestamp,
            command := none })
  | _ => (rs, [])

/-- ChatSocketHandler::on_message: every path ends in Ok(()). -/
def on_message (h : ChatSocketHandler) (msgId now : String) (rs : RoomState)
    (frame : Frame) : Except String (RoomState × List Event) :=
  .ok (on_message_core h msgId now rs frame)

/-- ChatSocketHandler::on_close: retain the connections whose id differs
    from the closing one, then run the source's last-connection check —
    which counts the remaining connections whose id EQUALS the closing
    connection's own id (kept verbatim, comment at line 404 included) —
    and on last-connection remove the User, append a leave SystemMessage
    and broadcast it. -/
def on_close (h : ChatSocketHandler) (msgId now : String) (rs : RoomState) :
    RoomState × List Event :=
  let conns := rs.connections.filter
    (fun conn => conn.connection_id != h.sender.connection_id)
  let is_last_connection : Bool :=
    (conns.filter
      (fun conn => conn.connection_id == h.sender.connection_id)).length == 0
  if is_last_connection then
    let leaveMsg : ChatMessage :=
      { id := msgId, room_id := h.room_id, sender := "System",
        content := h.nickname ++ " has left the room", timestamp := now,
        message_type := .SystemMessage }
    let rs' : RoomState :=
      { users := removeUser rs.users h.user_id,
        messages := rs.messages ++ [leaveMsg],
        connections := conns }
    (rs', rs'.broadcast (leaveBroadcastPayload h.nickname))
  else
    ({ rs with connections := conns }, [])

/-- The POST login route, core part: reject a nickname already taken in
    the room (plain redirect, no state change), else insert a fresh User,
    append a join SystemMessage and broadcast it.  Cookie handling is
    outside the room engine and not modelled. -/
def login (nickname room_id userId msgId now : String) (rs : RoomState) :
    RoomState × List Event :=
  if rs.users.any (fun kv =>
      kv.2.nickname == nickname && kv.2.room_id == room_id) then
    (rs, [])
  else
    let joinMsg : ChatMessage :=
      { id := msgId, room_id := room_id, sender := "System",
        content := nickname ++ " has joined the room", timestamp := now,
        message_type := .SystemMessage }
    let rs' : RoomState :=
      { users := insertUser rs.users userId
          { id := userId, nickname := nickname, room_id := room_id },
        messages := rs.messages ++ [joinMsg],
        connections := rs.connections }
    (rs', rs'.broadcast (joinBroadcastPayload nickname))

/-- The GET logout route with a session present: remove the user, append
    a leave SystemMessage and broadcast it. -/
def logout (s : UserSession) (msgId now : String) (rs : RoomState) :
    RoomState × List Event :=
  let leaveMsg : ChatMessage :=
    { id := msgId, room_id := s.room_id, sender := "System",
      content := s.nickname ++ " has left the room", timestamp := now,
      message_type := .SystemMessage }
  let rs' : RoomState :=
    { users := removeUser rs.users s.user_id,
      messages := rs.messages ++ [leaveMsg],
      connections := rs.connections }
  (rs', rs'.broadcast (leaveBroadcastPayload s.nickname))

/-- Every room-mutating entry point of the program, with its
    nondeterministic inputs (fresh ids, timestamps) made explicit. -/
inductive Op where
  | opOpen (h : ChatSocketHandler) (msgId now : String)
  | opMessage (h : ChatSocketHandler) (msgId now : String) (frame : Frame)
  | opClose (h : ChatSocketHandler) (msgId now : String)
  | opLogin (nickname room_id userId msgId now : String)
  | opLogout (s : UserSession) (msgId now : String)
deriving Repr

/-- The room identifier each entry point passes to get_or_create_room. -/
def Op.roomId : Op → String
  | .opOpen h _ _ => h.room_id
  | .opMessage h _ _ _ => h.room_id
  | .opClose h _ _ => h.room_id
  | .opLogin _ room_id _ _ _ => room_id
  | .opLogout s _ _ => s.room_id

/-- The connection id of the handler an operation runs on, if any: the
    only connection an operation may address outside a broadcast. -/
def Op.senderIds : Op → List Nat
  | .opOpen h _ _ => [h.sender.connection_id]
  | .opMessage h _ _ _ => [h.sender.connection_id]
  | .opClose h _ _ => [h.sender.connection_id]
  | .opLogin _ _ _ _ _ => []
  | .opLogout _ _ _ => []

/-- The effect of one operation on the room it addresses. -/
def stepRoom (op : Op) (rs : RoomState) : RoomState × List Event :=
  match op with
  | .opOpen h msgId now => on_open h msgId now rs
  | .opMessage h msgId now frame => on_message_core h msgId now rs frame
  | .opClose h msgId now => on_close h msgId now rs
  | .opLogin nickname room_id userId msgId now =>
      login nickname room_id userId msgId now rs
  | .opLogout s msgId now => logout s msgId now rs

def runRoom (ops : List Op) (rs : RoomState) : RoomState :=
  match ops with
  | [] => rs
  | op :: rest => runRoom rest (stepRoom op rs).1

abbrev ChatState := List (String × RoomState)

def lookupRoom : ChatState → String → Option RoomState
  | [], _ => none
  | (k, v) :: rest, key => if k = key then some v else lookupRoom rest key

/-- ChatState::get_or_create_room: insert an empty room if the key is
    unseen, and return (the clone of) the stored room. -/
def get_or_create_room (cs : ChatState) (room_id : String) :
    ChatState × RoomState :=
  match lookupRoom cs room_id with
  | some r => (cs, r)
  | none => (cs ++ [(room_id, RoomState.new)], RoomState.new)

def updateRoom : ChatState → String → RoomState → ChatState
  | [], key, r => [(key, r)]
  | (k, v) :: rest, key, r =>
      if k = key then (key, r) :: rest else (k, v) :: updateRoom rest key r

/-- One operation at the process level: fetch or create the room the
    operation addresses, run it there, store the updated room.  (In the
    source the RoomState clone shares its Arc'd interior with the stored
    room, so mutations through the clone are mutations of the stored
    room; the explicit write-back models exactly that.) -/
def stepGlobal (cs : ChatState) (op : Op) : ChatState × List Event :=
  let fetched := get_or_create_room cs op.roomId
  let stepped := stepRoom op fetched.2
  (updateRoom fetched.1 op.roomId stepped.1, stepped.2)

/- Helper lemmas shared by several claim theorems. -/

/-- Every operation only ever appends to the messages sequence, and never
    a Command-kind message. -/
theorem stepRoom_messages_append (op : Op) (rs : RoomState) :
    ∃ tail, (stepRoom op rs).1.messages = rs.messages ++ tail ∧
      ∀ m ∈ tail, m.message_type ≠ MessageType.Command := by
  cases op with
  | opOpen h msgId now =>
      simp only [stepRoom, on_open]
      split
      · exact ⟨[], by simp, by simp⟩
      · exact ⟨[⟨msgId, h.room_id, "System",
            h.nickname ++ " has joined the room", now, .SystemMessage⟩],
            rfl, by simp⟩
  | opMessage h msgId now frame =>
      cases frame with
      | withContent content =>
          simp only [stepRoom, on_message_core]
          split
          · exact ⟨[], by simp, by simp⟩
          · exact ⟨[⟨msgId, h.room_id, h.nickname, content, now,
                .UserMessage⟩], rfl, by simp⟩
      | notText => exact ⟨[], by simp [stepRoom, on_message_core], by simp⟩
      | invalidJson raw =>
          exact ⟨[], by simp [stepRoom, on_message_core], by simp⟩
      | jsonWithoutContent raw =>
          exact ⟨[], by simp [stepRoom, on_message_core], by simp⟩
  | opClose h msgId now =>
      simp only [stepRoom, on_close]
      split
      · exact ⟨[⟨msgId, h.room_id, "System",
            h.nickname ++ " has left the room", now, .SystemMessage⟩],
            rfl, by simp⟩
      · exact ⟨[], by simp, by simp⟩
  | opLogin nickname room_id userId msgId now =>
      simp only [stepRoom, login]
      split
      · exact ⟨[], by simp, by simp⟩
      · exact ⟨[⟨msgId, room_id, "System",
            nickname ++ " has joined the room", now, .SystemMessage⟩],
            rfl, by simp⟩
  | opLogout s msgId now =>
      exact ⟨[⟨msgId, s.room_id, "System",
          s.nickname ++ " has left the room", now, .SystemMessage⟩],
          rfl, by simp⟩

/-- Filtering a list for an id after all entries with that id were removed
    leaves nothing: the source's is_last_connection test is always true. -/
theorem filter_eq_after_filter_ne (l : List Sender) (k : Nat) :
    (l.filter (fun conn => conn.connection_id != k)).filter
      (fun conn => conn.connection_id == k) = [] := by
  rw [List.filter_eq_nil_iff]
  intro a ha
  have hne := List.of_mem_filter ha
  simp at hne ⊢
  exact hne

/-- on_close always takes the last-connection branch: it removes the User
    and appends plus broadcasts the leave announcement unconditionally. -/
theorem on_close_always_last (h : ChatSocketHandler) (msgId now : String)
    (rs : RoomState) :
    on_close h msgId now rs =
      (let conns := rs.connections.filter
        (fun conn => conn.connection_id != h.sender.connection_id)
      let leaveMsg : ChatMessage :=
        ⟨msgId, h.room_id, "System", h.nickname ++ " has left the room", now,
          .SystemMessage⟩
      let rs' : RoomState :=
        ⟨removeUser rs.users h.user_id, rs.messages ++ [leaveMsg], conns⟩
      (rs', rs'.broadcast (leaveBroadcastPayload h.nickname))) := by
  simp [on_close, filter_eq_after_filter_ne]

/-- handle_command sends exactly one event, addressed to the sender. -/
theorem handle_command_single_reply (h : ChatSocketHandler) (c : String) :
    ∃ p, handle_command h c = [Event.send h.sender.connection_id p] := by
  unfold handle_command
  split
  · exact ⟨_, rfl⟩
  · split
    · exact ⟨_, rfl⟩
    · exact ⟨_, rfl⟩

/-- C7: a Room's message history is append-only — every operation (login,
    logout, on_open, on_message, on_close) only pushes to the end of the
    messages sequence, so the old history is a prefix of the new one and
    every already-appended message keeps its position. -/
theorem history_append_only (op : Op) (rs : RoomState) :
    (∃ tail, (stepRoom op rs).1.messages = rs.messages ++ tail) ∧
      (stepRoom op rs).1.messages.take rs.messages.length = rs.messages := by
  obtain ⟨tail, heq, -⟩ := stepRoom_messages_append op rs
  refine ⟨⟨tail, heq⟩, ?_⟩
  rw [heq]
  simp

def noCommandInHistory (rs : RoomState) : Prop :=
  ∀ m ∈ rs.messages, m.message_type ≠ MessageType.Command

/-- C9: starting from an empty room, no sequence of operations ever puts
    a Command-kind message into the history — command frames are answered
    by a direct send in handle_command and bypass the append path — so
    history replay never emits the command discriminator. -/
theorem no_command_in_reachable_history (ops : List Op) :
    noCommandInHistory (runRoom ops RoomState.new) := by
  have key : ∀ ops' rs, noCommandInHistory rs →
      noCommandInHistory (runRoom ops' rs) := by
    intro ops'
    induction ops' with
    | nil => intro rs hrs; exact hrs
    | cons op rest ih =>
        intro rs hrs
        refine ih _ ?_
        obtain ⟨tail, heq, htail⟩ := stepRoom_messages_append op rs
        intro m hm
        rw [noCommandInHistory] at hrs
        rw [heq, List.mem_append] at hm
        cases hm with
        | inl hmem => exact hrs m hmem
        | inr hmem => exact htail m hmem
  refine key ops RoomState.new ?_
  intro m hm
  simp [RoomState.new] at hm

/-- C3: a connection completing on_open receives the full history, in
    append order, each entry tagged with the wire discriminator of its
    kind, and those replay sends come before everything the open
    broadcasts afterwards (rest is the join-announcement fan-out, the
    first of the sends issued after this connection is registered). -/
theorem history_replay_first_in_order (h : ChatSocketHandler)
    (msgId now : String) (rs : RoomState) :
    ∃ rest, (on_open h msgId now rs).2 =
      rs.messages.map
        (fun m => Event.send h.sender.connection_id (replayPayload m))
        ++ rest ∧
      ∀ m : ChatMessage, (replayPayload m).type = wireDisc m.message_type := by
  simp only [on_open]
  split
  · exact ⟨[], by simp, fun m => rfl⟩
  · exact ⟨_, rfl, fun m => rfl⟩

/-- C4: a slash-prefixed content is routed to handle_command, which sends
    exactly one reply to the originating connection, leaves the room state
    unchanged, and for an unrecognized directive the reply is the error
    notice naming it. -/
theorem command_frame_reply_to_sender_only (h : ChatSocketHandler)
    (msgId now : String) (rs : RoomState) (content : String)
    (hs : content.data.head? = some '/') :
    on_message h msgId now rs (Frame.withContent content) =
      Except.ok (rs, handle_command h content) ∧
    (∃ p, handle_command h content =
      [Event.send h.sender.connection_id p]) ∧
    (content ≠ "/clear" → content ≠ "/logout" →
      handle_command h content = [Event.send h.sender.connection_id
        ⟨"system", none, none, some ("Unknown command: " ++ content),
          none, none⟩]) := by
  refine ⟨?_, handle_command_single_reply h content, ?_⟩
  · simp [on_message, on_message_core, hs]
  · intro h1 h2
    simp [handle_command, h1, h2]

def demoHandler : ChatSocketHandler := ⟨⟨7⟩, "lobby", "uid-demo", "demo"⟩

theorem command_frame_reply_to_sender_only_witness :
    ("/frob".data.head? = some '/') ∧
    (on_message demoHandler "m1" "t1" RoomState.new
        (Frame.withContent "/frob") =
      Except.ok (RoomState.new, handle_command demoHandler "/frob") ∧
    (∃ p, handle_command demoHandler "/frob" =
      [Event.send demoHandler.sender.connection_id p]) ∧
    ("/frob" ≠ "/clear" → "/frob" ≠ "/logout" →
      handle_command demoHandler "/frob" =
        [Event.send demoHandler.sender.connection_id
          ⟨"system", none, none, some ("Unknown command: " ++ "/frob"),
            none, none⟩])) :=
  ⟨by decide, command_frame_reply_to_sender_only demoHandler "m1" "t1"
    RoomState.new "/frob" (by decide)⟩

/-- C5: a frame that is not text, not valid JSON, or lacks a string
    content field is dropped silently: no event, no state change, and the
    handler still returns Ok. -/
theorem unusable_frame_silently_dropped (h : ChatSocketHandler)
    (msgId now : String) (rs : RoomState) (frame : Frame)
    (hf : ∀ c, frame ≠ Frame.withContent c) :
    on_message h msgId now rs frame = Except.ok (rs, []) := by
  cases frame with
  | withContent c => exact absurd rfl (hf c)
  | notText => rfl
  | invalidJson raw => rfl
  | jsonWithoutContent raw => rfl

theorem unusable_frame_silently_dropped_witness :
    (∀ c, Frame.invalidJson "not json" ≠ Frame.withContent c) ∧
    on_message demoHandler "m2" "t2" RoomState.new
        (Frame.invalidJson "not json") =
      Except.ok (RoomState.new, []) :=
  ⟨fun _ hc => Frame.noConfusion hc,
    unusable_frame_silently_dropped demoHandler "m2" "t2" RoomState.new _
      (fun _ hc => Frame.noConfusion hc)⟩

/-- C6: broadcast attempts one send per registered connection (the
    attempt list has full length and contains an attempt for each
    connection), and a registered connection that is itself healthy
    receives the payload no matter which other sends fail. -/
theorem broadcast_best_effort (rs : RoomState) (p : WirePayload)
    (ok : Nat → Bool) (c : Sender) (hc : c ∈ rs.connections) :
    (RoomState.broadcast rs p).length = rs.connections.length ∧
    Event.send c.connection_id p ∈ RoomState.broadcast rs p ∧
    (ok c.connection_id = true →
      Event.send c.connection_id p ∈
        deliveredTo ok (RoomState.broadcast rs p)) := by
  refine ⟨by simp [RoomState.broadcast], List.mem_map_of_mem _ hc, ?_⟩
  intro hok
  rw [deliveredTo, List.mem_filter]
  exact ⟨List.mem_map_of_mem _ hc, by simpa [Event.target] using hok⟩

def demoPayload : WirePayload := ⟨"message", none, none, some "hi", none, none⟩

def twoConnRoom : RoomState := ⟨[], [], [⟨1⟩, ⟨2⟩]⟩

def dropConnOne : Nat → Bool := fun n => n != 1

theorem broadcast_best_effort_witness :
    (Sender.mk 2 ∈ twoConnRoom.connections) ∧
    ((RoomState.broadcast twoConnRoom demoPayload).length =
        twoConnRoom.connections.length ∧
      Event.send (Sender.mk 2).connection_id demoPayload ∈
        RoomState.broadcast twoConnRoom demoPayload ∧
      (dropConnOne (Sender.mk 2).connection_id = true →
        Event.send (Sender.mk 2).connection_id demoPayload ∈
          deliveredTo dropConnOne
            (RoomState.broadcast twoConnRoom demoPayload))) :=
  ⟨by decide,
    broadcast_best_effort twoConnRoom demoPayload dropConnOne ⟨2⟩ (by decide)⟩

/-- A broadcast event is always addressed to one of the connections of
    the room it was invoked on. -/
theorem event_target_of_broadcast {rs : RoomState} {p : WirePayload}
    {e : Event} (h : e ∈ RoomState.broadcast rs p) :
    e.target ∈ rs.connections.map Sender.connection_id := by
  simp only [RoomState.broadcast, List.mem_map] at h
  obtain ⟨c, hc, rfl⟩ := h
  exact List.mem_map_of_mem _ hc

/-- Every event an operation emits is addressed either to a connection
    registered in the room before or after the operation, or to the
    operation's own originating connection. -/
theorem stepRoom_event_targets (op : Op) (rs : RoomState) :
    ∀ e ∈ (stepRoom op rs).2,
      e.target ∈ rs.connections.map Sender.connection_id
        ++ (stepRoom op rs).1.connections.map Sender.connection_id
        ++ op.senderIds := by
  intro e he
  rw [List.mem_append, List.mem_append]
  cases op with
  | opOpen h msgId now =>
      by_cases hc : containsKeyUser rs.users h.user_id
      · simp [stepRoom, on_open, hc] at he
        obtain ⟨m, -, rfl⟩ := he
        right
        simp [Op.senderIds, Event.target]
      · simp [stepRoom, on_open, hc] at he
        rcases he with ⟨m, -, rfl⟩ | hb
        · right
          simp [Op.senderIds, Event.target]
        · left; right
          have ht := event_target_of_broadcast hb
          simpa [stepRoom, on_open, hc] using ht
  | opMessage h msgId now frame =>
      cases frame with
      | withContent content =>
          by_cases hs : content.data.head? = some '/'
          · simp [stepRoom, on_message_core, hs] at he
            obtain ⟨p, hp⟩ := handle_command_single_reply h content
            rw [hp, List.mem_singleton] at he
            subst he
            right
            simp [Op.senderIds, Event.target]
          · simp only [stepRoom, on_message_core, if_neg hs] at he
            left; right
            have ht := event_target_of_broadcast he
            simpa [stepRoom, on_message_core, if_neg hs] using ht
      | notText => simp [stepRoom, on_message_core] at he
      | invalidJson raw => simp [stepRoom, on_message_core] at he
      | jsonWithoutContent raw => simp [stepRoom, on_message_core] at he
  | opClose h msgId now =>
      rw [show stepRoom (Op.opClose h msgId now) rs = on_close h msgId now rs
        from rfl, on_close_always_last] at he ⊢
      left; right
      exact event_target_of_broadcast he
  | opLogin nickname room_id userId msgId now =>
      by_cases ht : rs.users.any (fun kv =>
          kv.2.nickname == nickname && kv.2.room_id == room_id)
      · simp [stepRoom, login, ht] at he
      · simp only [stepRoom, login, if_neg ht] at he
        left; left
        have hmem := event_target_of_broadcast he
        simpa [stepRoom, login, if_neg ht] using hmem
  | opLogout s msgId now =>
      left; left
      have hmem := event_target_of_broadcast (show e ∈ _ from he)
      simpa [stepRoom, logout] using hmem

theorem lookupRoom_updateRoom_ne (cs : ChatState) (key rid : String)
    (r : RoomState) (hne : rid ≠ key) :
    lookupRoom (updateRoom cs key r) rid = lookupRoom cs rid := by
  induction cs with
  | nil => simp [updateRoom, lookupRoom, Ne.symm hne]
  | cons kv rest ih =>
      obtain ⟨k, v⟩ := kv
      by_cases hk : k = key
      · subst hk
        simp [updateRoom, lookupRoom, Ne.symm hne]
      · simp only [updateRoom, if_neg hk]
        by_cases hr : k = rid
        · simp [lookupRoom, hr]
        · simp [lookupRoom, hr, ih]

theorem lookupRoom_append_ne (cs : ChatState) (key rid : String)
    (r : RoomState) (hne : rid ≠ key) :
    lookupRoom (cs ++ [(key, r)]) rid = lookupRoom cs rid := by
  induction cs with
  | nil => simp [lookupRoom, Ne.symm hne]
  | cons kv rest ih =>
      obtain ⟨k, v⟩ := kv
      by_cases hr : k = rid
      · simp [lookupRoom, hr]
      · simp [lookupRoom, hr, ih]

theorem lookupRoom_get_or_create_ne (cs : ChatState) (key rid : String)
    (hne : rid ≠ key) :
    lookupRoom (get_or_create_room cs key).1 rid = lookupRoom cs rid := by
  unfold get_or_create_room
  cases lookupRoom cs key with
  | some r => rfl
  | none => exact lookupRoom_append_ne cs key rid RoomState.new hne

/-- C8: an operation addressed to room A leaves every other room of the
    registry untouched (get_or_create_room gives each identifier its own
    RoomState), and every send it emits targets a connection registered
    in room A before or after the step, or the operation's own
    originating connection — never a connection registered only in
    another room. -/
theorem room_isolation (cs : ChatState) (op : Op) (rid : String)
    (hne : rid ≠ op.roomId) :
    lookupRoom (stepGlobal cs op).1 rid = lookupRoom cs rid ∧
    ∀ e ∈ (stepGlobal cs op).2,
      e.target ∈
        (get_or_create_room cs op.roomId).2.connections.map
            Sender.connection_id
          ++ (stepRoom op (get_or_create_room cs op.roomId).2).1.connections.map
            Sender.connection_id
          ++ op.senderIds := by
  constructor
  · simp only [stepGlobal]
    rw [lookupRoom_updateRoom_ne _ _ _ _ hne,
      lookupRoom_get_or_create_ne _ _ _ hne]
  · intro e he
    exact stepRoom_event_targets op _ e he

def isolationCs : ChatState := [("other", twoConnRoom)]

def isolationOp : Op := .opLogout ⟨"u-log", "nick", "lobby"⟩ "m3" "t3"

theorem room_isolation_witness :
    ("other" ≠ Op.roomId isolationOp) ∧
    (lookupRoom (stepGlobal isolationCs isolationOp).1 "other" =
        lookupRoom isolationCs "other" ∧
      ∀ e ∈ (stepGlobal isolationCs isolationOp).2,
        e.target ∈
          (get_or_create_room isolationCs (Op.roomId isolationOp)).2.connections.map
              Sender.connection_id
            ++ (stepRoom isolationOp
                (get_or_create_room isolationCs (Op.roomId isolationOp)).2).1.connections.map
              Sender.connection_id
            ++ Op.senderIds isolationOp) :=
  ⟨by decide, room_isolation isolationCs isolationOp "other" (by decide)⟩

/-- C10: on_close appends one SystemMessage and broadcasts the live leave
    payload, which carries only type and content (id, sender, timestamp
    all absent), while the replayed form of that same appended message
    carries id, sender and timestamp — the two wire shapes always differ;
    the live join payload has the same two-field shape. -/
theorem live_vs_replay_system_payload_shape (h : ChatSocketHandler)
    (msgId now : String) (rs : RoomState) :
    ∃ m, (on_close h msgId now rs).1.messages = rs.messages ++ [m] ∧
      m.message_type = MessageType.SystemMessage ∧
      (on_close h msgId now rs).2 =
        RoomState.broadcast (on_close h msgId now rs).1
          (leaveBroadcastPayload h.nickname) ∧
      (leaveBroadcastPayload h.nickname).id = none ∧
      (leaveBroadcastPayload h.nickname).sender = none ∧
      (leaveBroadcastPayload h.nickname).timestamp = none ∧
      (replayPayload m).id = some msgId ∧
      (replayPayload m).sender = some "System" ∧
      (replayPayload m).timestamp = some now ∧
      replayPayload m ≠ leaveBroadcastPayload h.nickname ∧
      ∀ n : String, (joinBroadcastPayload n).id = none ∧
        (joinBroadcastPayload n).sender = none ∧
        (joinBroadcastPayload n).timestamp = none := by
  rw [on_close_always_last]
  refine ⟨⟨msgId, h.room_id, "System", h.nickname ++ " has left the room",
      now, .SystemMessage⟩,
    rfl, rfl, rfl, rfl, rfl, rfl, rfl, rfl, rfl, ?_,
    fun n => ⟨rfl, rfl, rfl⟩⟩
  simp [replayPayload, leaveBroadcastPayload]

/- Concrete two-tab trace for the presence claims: the same user opens
   two WebSocket connections into the lobby, then the first one closes. -/

def aliceTab1 : ChatSocketHandler := ⟨⟨1⟩, "lobby", "alice-id", "alice"⟩

def aliceTab2 : ChatSocketHandler := ⟨⟨2⟩, "lobby", "alice-id", "alice"⟩

def afterOpens : RoomState :=
  (on_open aliceTab2 "m2" "t2" (on_open aliceTab1 "m1" "t1" RoomState.new).1).1

def afterFirstClose : RoomState × List Event :=
  on_close aliceTab1 "m3" "t3" afterOpens

/-- C1, evaluated at the failing input: two opens for the same user do
    produce exactly one join announcement, one User record and two
    registered connections — but closing just the FIRST of the two
    connections already removes the User, appends a leave announcement
    and broadcasts it to the surviving connection, because the source's
    is_last_connection check compares the closing connection's id with
    itself and is always true. -/
theorem close_first_of_two_connections_emits_leave :
    afterOpens.users = [("alice-id", ⟨"alice-id", "alice", "lobby"⟩)] ∧
    afterOpens.messages.map ChatMessage.content =
      ["alice has joined the room"] ∧
    afterOpens.connections = [⟨1⟩, ⟨2⟩] ∧
    afterFirstClose.1.users = [] ∧
    afterFirstClose.1.messages.map ChatMessage.content =
      ["alice has joined the room", "alice has left the room"] ∧
    afterFirstClose.2 = [Event.send 2 (leaveBroadcastPayload "alice")] := by
  refine ⟨rfl, rfl, rfl, rfl, rfl, rfl⟩

def loginOnly : RoomState × List Event :=
  login "bob" "lobby" "bob-id" "m9" "t9" RoomState.new

/-- C2, evaluated at two failing inputs: after a plain HTTP login a User
    record exists although the room has no registered connection at all,
    and after the two-tab trace of C1 a live connection (id 2) is still
    registered although the User record is gone — the presence iff fails
    in both directions in reachable states. -/
theorem presence_iff_violated :
    (lookupUser loginOnly.1.users "bob-id").isSome = true ∧
    loginOnly.1.connections = [] ∧
    afterFirstClose.1.connections = [⟨2⟩] ∧
    lookupUser afterFirstClose.1.users "alice-id" = none := by
  refine ⟨rfl, rfl, rfl, rfl⟩
